import Mathlib

/-!
# Verification of the chess rules engine

A shallow embedding of the repository's chess core: board utilities
(boardUtils.ts), pseudo-legal move generation (moveGenerator.ts), the attack
detector and status checker (gameStateChecker.ts), the move executor
(moveExecutor.ts), the move validator (moveValidator.ts) and the engine
orchestrator (chessEngine.ts).  TypeScript arrays become Lean lists, objects
become structures, `null`/`undefined` become `Option`, and the engine's
mutable field becomes explicit state passing.
-/

set_option maxRecDepth 4096

namespace Chess

/-- `Color` from types.ts. -/
inductive Color where
  | white
  | black
deriving DecidableEq, Repr

/-- `PieceType` from types.ts. -/
inductive PieceType where
  | king
  | queen
  | rook
  | bishop
  | knight
  | pawn
deriving DecidableEq, Repr

/-- `File` from types.ts: one of the letters a-h. -/
inductive File where
  | a
  | b
  | c
  | d
  | e
  | f
  | g
  | h
deriving DecidableEq, Repr

/-- `Square` from types.ts.  The source's `Rank` is the numbers 1-8; we embed
it as `Nat` (all squares built by the code carry ranks 1-8). -/
structure Square where
  file : File
  rank : Nat
deriving DecidableEq, Repr

/-- `Piece` from types.ts. -/
structure Piece where
  type : PieceType
  color : Color
deriving DecidableEq, Repr

/-- `Board` from types.ts: an 8x8 grid of optional pieces, rank-major. -/
def Board := List (List (Option Piece))
deriving DecidableEq, Repr

/-- `CastlingRights` from types.ts. -/
structure CastlingRights where
  whiteKingside : Bool
  whiteQueenside : Bool
  blackKingside : Bool
  blackQueenside : Bool
deriving DecidableEq, Repr

/-- `Move` from types.ts (`from`/`to`/optional `promotion`).  `from` is a Lean
keyword, so the fields are `fromSq`/`toSq`. -/
structure Move where
  fromSq : Square
  toSq : Square
  promotion : Option PieceType := none
deriving DecidableEq, Repr

/-- The `'kingside' | 'queenside'` union used for castling. -/
inductive CastleSide where
  | kingside
  | queenside
deriving DecidableEq, Repr

/-! ## boardUtils.ts -/

/-- `FILES` from boardUtils.ts. -/
def FILES : List File := [.a, .b, .c, .d, .e, .f, .g, .h]

/-- `FILES.indexOf` specialised to a file letter (total: every `File` occurs). -/
def fileIndex : File → Nat
  | .a => 0
  | .b => 1
  | .c => 2
  | .d => 3
  | .e => 4
  | .f => 5
  | .g => 6
  | .h => 7

/-- `squareToIndex` from boardUtils.ts: `(rankIndex, fileIndex)`. -/
def squareToIndex (square : Square) : Nat × Nat :=
  (square.rank - 1, fileIndex square.file)

/-- `indexToSquare` from boardUtils.ts.  The source indexes `FILES`/`RANKS`;
call sites guard with `isValidIndex`, so the `getD` default is never hit
there. -/
def indexToSquare (rankIndex fileIndex : Nat) : Square :=
  { file := FILES.getD fileIndex .a, rank := rankIndex + 1 }

/-- Cell read `board[rankIndex][fileIndex]` (guarded in the source). -/
def getCell (board : Board) (rankIndex fileIndex : Nat) : Option Piece :=
  ((board.getD rankIndex []).getD fileIndex none)

/-- `getPiece` from boardUtils.ts. -/
def getPiece (board : Board) (square : Square) : Option Piece :=
  let (rankIndex, fileIndex) := squareToIndex square
  getCell board rankIndex fileIndex

/-- `cloneBoard` from boardUtils.ts: a deep copy, which for pure values is the
board itself. -/
def cloneBoard (board : Board) : Board := board

/-- `setPiece` from boardUtils.ts: clone, then overwrite one cell. -/
def setPiece (board : Board) (square : Square) (piece : Option Piece) : Board :=
  let newBoard := cloneBoard board
  let (rankIndex, fileIndex) := squareToIndex square
  newBoard.set rankIndex ((newBoard.getD rankIndex []).set fileIndex piece)

/-- `getKingSquare` from boardUtils.ts: scan rank-major for the king. -/
def getKingSquare (board : Board) (color : Color) : Option Square :=
  (List.range 8).findSome? fun rankIndex =>
    (List.range 8).findSome? fun fileIndex =>
      match getCell board rankIndex fileIndex with
      | some piece =>
          if piece.type = .king ∧ piece.color = color then
            some (indexToSquare rankIndex fileIndex)
          else none
      | none => none

/-- `isValidIndex` from boardUtils.ts (indices may go negative mid-loop, so
the embedding uses `Int`). -/
def isValidIndex (rankIndex fileIndex : Int) : Bool :=
  0 ≤ rankIndex && rankIndex < 8 && 0 ≤ fileIndex && fileIndex < 8

/-- `squaresEqual` from boardUtils.ts. -/
def squaresEqual (a b : Square) : Bool :=
  a.file == b.file && a.rank == b.rank

/-- One rank of pawns. -/
def pawnRank (color : Color) : List (Option Piece) :=
  List.replicate 8 (some { type := .pawn, color })

/-- One back rank. -/
def backRank (color : Color) : List (Option Piece) :=
  [some { type := .rook, color }, some { type := .knight, color },
   some { type := .bishop, color }, some { type := .queen, color },
   some { type := .king, color }, some { type := .bishop, color },
   some { type := .knight, color }, some { type := .rook, color }]

/-- An empty rank. -/
def emptyRank : List (Option Piece) := List.replicate 8 none

/-- `INITIAL_BOARD` from boardUtils.ts. -/
def INITIAL_BOARD : Board :=
  [backRank .white, pawnRank .white, emptyRank, emptyRank,
   emptyRank, emptyRank, pawnRank .black, backRank .black]

/-! ## gameStateChecker.ts: the attack detector -/

/-- The knight's 8 L-shaped offsets (shared by the generator and detector). -/
def knightOffsets : List (Int × Int) :=
  [(-2, -1), (-2, 1), (-1, -2), (-1, 2), (1, -2), (1, 2), (2, -1), (2, 1)]

/-- The king's 8 unit offsets (shared by the generator and detector). -/
def kingOffsets : List (Int × Int) :=
  [(-1, -1), (-1, 0), (-1, 1), (0, -1), (0, 1), (1, -1), (1, 0), (1, 1)]

/-- The rook/queen ray directions. -/
def rookDirections : List (Int × Int) := [(-1, 0), (1, 0), (0, -1), (0, 1)]

/-- The bishop/queen ray directions. -/
def bishopDirections : List (Int × Int) := [(-1, -1), (-1, 1), (1, -1), (1, 1)]

/-- The while-loop of `isAttackedAlongRay`, with fuel: at most 7 in-board
steps are possible, so fuel 8 reproduces the loop exactly. -/
def attackRayWalk (board : Board) (dRank dFile : Int) (byColor : Color)
    (pieceTypes : List PieceType) : Nat → Int → Int → Bool
  | 0, _, _ => false
  | fuel + 1, rank, file =>
    if isValidIndex rank file then
      let square := indexToSquare rank.toNat file.toNat
      match getPiece board square with
      | some piece =>
          if piece.color = byColor ∧ pieceTypes.contains piece.type then true
          else false
      | none => attackRayWalk board dRank dFile byColor pieceTypes fuel
          (rank + dRank) (file + dFile)
    else false

/-- `isAttackedAlongRay` from gameStateChecker.ts. -/
def isAttackedAlongRay (board : Board) (startRank startFile dRank dFile : Int)
    (byColor : Color) (pieceTypes : List PieceType) : Bool :=
  attackRayWalk board dRank dFile byColor pieceTypes 8
    (startRank + dRank) (startFile + dFile)

/-- `isSquareAttacked` from gameStateChecker.ts. -/
def isSquareAttacked (board : Board) (square : Square) (byColor : Color) : Bool :=
  let (targetRank, targetFile) := squareToIndex square
  let targetRank : Int := targetRank
  let targetFile : Int := targetFile
  -- Pawn attacks: look one rank toward the attacker, one file either side.
  let pawnDirection : Int := if byColor = .white then -1 else 1
  let pawnAttackRank := targetRank + pawnDirection
  let pawnHit := [(-1 : Int), 1].any fun dFile =>
    let pawnFile := targetFile + dFile
    if isValidIndex pawnAttackRank pawnFile then
      match getPiece board (indexToSquare pawnAttackRank.toNat pawnFile.toNat) with
      | some piece => piece.type = .pawn ∧ piece.color = byColor
      | none => false
    else false
  if pawnHit then true else
  -- Knight attacks.
  let knightHit := knightOffsets.any fun (dRank, dFile) =>
    let knightRank := targetRank + dRank
    let knightFile := targetFile + dFile
    if isValidIndex knightRank knightFile then
      match getPiece board (indexToSquare knightRank.toNat knightFile.toNat) with
      | some piece => piece.type = .knight ∧ piece.color = byColor
      | none => false
    else false
  if knightHit then true else
  -- King attacks.
  let kingHit := kingOffsets.any fun (dRank, dFile) =>
    let kingRank := targetRank + dRank
    let kingFile := targetFile + dFile
    if isValidIndex kingRank kingFile then
      match getPiece board (indexToSquare kingRank.toNat kingFile.toNat) with
      | some piece => piece.type = .king ∧ piece.color = byColor
      | none => false
    else false
  if kingHit then true else
  -- Sliding attacks along orthogonals and diagonals.
  let rookHit := rookDirections.any fun (dRank, dFile) =>
    isAttackedAlongRay board targetRank targetFile dRank dFile byColor [.rook, .queen]
  if rookHit then true else
  bishopDirections.any fun (dRank, dFile) =>
    isAttackedAlongRay board targetRank targetFile dRank dFile byColor [.bishop, .queen]

/-! ## moveGenerator.ts -/

/-- `generateKingMoves` from moveGenerator.ts. -/
def generateKingMoves (board : Board) (fromSq : Square) (color : Color) : List Move :=
  let (rankIndex, fileIndex) := squareToIndex fromSq
  kingOffsets.filterMap fun (dRank, dFile) =>
    let newRankIndex : Int := (rankIndex : Int) + dRank
    let newFileIndex : Int := (fileIndex : Int) + dFile
    if isValidIndex newRankIndex newFileIndex then
      let targetSquare := indexToSquare newRankIndex.toNat newFileIndex.toNat
      match getPiece board targetSquare with
      | none => some { fromSq, toSq := targetSquare }
      | some targetPiece =>
          if targetPiece.color ≠ color then some { fromSq, toSq := targetSquare }
          else none
    else none

/-- `generateKnightMoves` from moveGenerator.ts. -/
def generateKnightMoves (board : Board) (fromSq : Square) (color : Color) : List Move :=
  let (rankIndex, fileIndex) := squareToIndex fromSq
  knightOffsets.filterMap fun (dRank, dFile) =>
    let newRankIndex : Int := (rankIndex : Int) + dRank
    let newFileIndex : Int := (fileIndex : Int) + dFile
    if isValidIndex newRankIndex newFileIndex then
      let targetSquare := indexToSquare newRankIndex.toNat newFileIndex.toNat
      match getPiece board targetSquare with
      | none => some { fromSq, toSq := targetSquare }
      | some targetPiece =>
          if targetPiece.color ≠ color then some { fromSq, toSq := targetSquare }
          else none
    else none

/-- The while-loop of `generateRayMoves`, with fuel (7 in-board steps at
most, so fuel 8 reproduces the loop). -/
def rayWalk (board : Board) (fromSq : Square) (color : Color)
    (dRank dFile : Int) : Nat → Int → Int → List Move
  | 0, _, _ => []
  | fuel + 1, rank, file =>
    if isValidIndex rank file then
      let targetSquare := indexToSquare rank.toNat file.toNat
      match getPiece board targetSquare with
      | none =>
          { fromSq, toSq := targetSquare } ::
            rayWalk board fromSq color dRank dFile fuel (rank + dRank) (file + dFile)
      | some targetPiece =>
          if targetPiece.color ≠ color then [{ fromSq, toSq := targetSquare }]
          else []
    else []

/-- `generateRayMoves` from moveGenerator.ts. -/
def generateRayMoves (board : Board) (fromSq : Square) (color : Color)
    (dRank dFile : Int) : List Move :=
  let (rankIndex, fileIndex) := squareToIndex fromSq
  rayWalk board fromSq color dRank dFile 8
    ((rankIndex : Int) + dRank) ((fileIndex : Int) + dFile)

/-- `generateRookMoves` from moveGenerator.ts. -/
def generateRookMoves (board : Board) (fromSq : Square) (color : Color) : List Move :=
  rookDirections.flatMap fun (dRank, dFile) =>
    generateRayMoves board fromSq color dRank dFile

/-- `generateBishopMoves` from moveGenerator.ts. -/
def generateBishopMoves (board : Board) (fromSq : Square) (color : Color) : List Move :=
  bishopDirections.flatMap fun (dRank, dFile) =>
    generateRayMoves board fromSq color dRank dFile

/-- `generateQueenMoves` from moveGenerator.ts. -/
def generateQueenMoves (board : Board) (fromSq : Square) (color : Color) : List Move :=
  generateRookMoves board fromSq color ++ generateBishopMoves board fromSq color

/-- The four-way promotion expansion used by `generatePawnMoves` (queen,
rook, bishop, knight, in the source's push order). -/
def promotionExpansion (fromSq toSq : Square) : List Move :=
  [{ fromSq, toSq, promotion := some .queen },
   { fromSq, toSq, promotion := some .rook },
   { fromSq, toSq, promotion := some .bishop },
   { fromSq, toSq, promotion := some .knight }]

/-- `generatePawnMoves` from moveGenerator.ts. -/
def generatePawnMoves (board : Board) (fromSq : Square) (color : Color)
    (enPassantTarget : Option Square) : List Move :=
  let (rankIndex, fileIndex) := squareToIndex fromSq
  let direction : Int := if color = .white then 1 else -1
  let startRank : Nat := if color = .white then 1 else 6
  let promotionRank : Int := if color = .white then 7 else 0
  -- Single forward move (with promotion expansion), then the double move.
  let oneForwardRank : Int := (rankIndex : Int) + direction
  let forwardMoves : List Move :=
    if isValidIndex oneForwardRank (fileIndex : Int) then
      let oneForwardSquare := indexToSquare oneForwardRank.toNat fileIndex
      match getPiece board oneForwardSquare with
      | some _ => []
      | none =>
          let single :=
            if oneForwardRank = promotionRank then
              promotionExpansion fromSq oneForwardSquare
            else [{ fromSq, toSq := oneForwardSquare }]
          let double :=
            if rankIndex = startRank then
              let twoForwardRank : Int := (rankIndex : Int) + 2 * direction
              if isValidIndex twoForwardRank (fileIndex : Int) then
                let twoForwardSquare := indexToSquare twoForwardRank.toNat fileIndex
                match getPiece board twoForwardSquare with
                | some _ => []
                | none => [{ fromSq, toSq := twoForwardSquare }]
              else []
            else []
          single ++ double
    else []
  -- Diagonal captures (regular, then en passant), left then right.
  let captures : List Move := [(-1 : Int), 1].flatMap fun dFile =>
    let captureRank : Int := (rankIndex : Int) + direction
    let captureFile : Int := (fileIndex : Int) + dFile
    if isValidIndex captureRank captureFile then
      let captureSquare := indexToSquare captureRank.toNat captureFile.toNat
      let regular : List Move :=
        match getPiece board captureSquare with
        | some pieceAtCapture =>
            if pieceAtCapture.color ≠ color then
              if captureRank = promotionRank then
                promotionExpansion fromSq captureSquare
              else [{ fromSq, toSq := captureSquare }]
            else []
        | none => []
      let enPassant : List Move :=
        match enPassantTarget with
        | some target =>
            if captureSquare.file = target.file ∧ captureSquare.rank = target.rank then
              [{ fromSq, toSq := captureSquare }]
            else []
        | none => []
      regular ++ enPassant
    else []
  forwardMoves ++ captures

/-- `generateCastlingMoves` from moveGenerator.ts. -/
def generateCastlingMoves (board : Board) (color : Color)
    (castlingRights : CastlingRights) : List Move :=
  let opponentColor := if color = .white then Color.black else Color.white
  let backRank : Nat := if color = .white then 1 else 8
  let kingSquare : Square := { file := .e, rank := backRank }
  match getPiece board kingSquare with
  | none => []
  | some king =>
    if king.type ≠ .king ∨ king.color ≠ color then []
    else if isSquareAttacked board kingSquare opponentColor then []
    else
      let canKingside := if color = .white then castlingRights.whiteKingside
        else castlingRights.blackKingside
      let kingsideMoves : List Move :=
        if canKingside then
          let fSquare : Square := { file := .f, rank := backRank }
          let gSquare : Square := { file := .g, rank := backRank }
          let hSquare : Square := { file := .h, rank := backRank }
          match getPiece board hSquare with
          | some rook =>
              if rook.type = .rook ∧ rook.color = color then
                if (getPiece board fSquare).isNone ∧ (getPiece board gSquare).isNone then
                  if ¬ isSquareAttacked board fSquare opponentColor ∧
                      ¬ isSquareAttacked board gSquare opponentColor then
                    [{ fromSq := kingSquare, toSq := gSquare }]
                  else []
                else []
              else []
          | none => []
        else []
      let canQueenside := if color = .white then castlingRights.whiteQueenside
        else castlingRights.blackQueenside
      let queensideMoves : List Move :=
        if canQueenside then
          let dSquare : Square := { file := .d, rank := backRank }
          let cSquare : Square := { file := .c, rank := backRank }
          let bSquare : Square := { file := .b, rank := backRank }
          let aSquare : Square := { file := .a, rank := backRank }
          match getPiece board aSquare with
          | some rook =>
              if rook.type = .rook ∧ rook.color = color then
                if (getPiece board bSquare).isNone ∧ (getPiece board cSquare).isNone ∧
                    (getPiece board dSquare).isNone then
                  if ¬ isSquareAttacked board dSquare opponentColor ∧
                      ¬ isSquareAttacked board cSquare opponentColor then
                    [{ fromSq := kingSquare, toSq := cSquare }]
                  else []
                else []
              else []
          | none => []
        else []
      kingsideMoves ++ queensideMoves

/-- `generatePieceMoves` from moveGenerator.ts. -/
def generatePieceMoves (board : Board) (fromSq : Square) (piece : Piece)
    (enPassantTarget : Option Square) : List Move :=
  match piece.type with
  | .king => generateKingMoves board fromSq piece.color
  | .queen => generateQueenMoves board fromSq piece.color
  | .rook => generateRookMoves board fromSq piece.color
  | .bishop => generateBishopMoves board fromSq piece.color
  | .knight => generateKnightMoves board fromSq piece.color
  | .pawn => generatePawnMoves board fromSq piece.color enPassantTarget

/-- `generateAllPseudoLegalMoves` from moveGenerator.ts. -/
def generateAllPseudoLegalMoves (board : Board) (color : Color)
    (enPassantTarget : Option Square) : List Move :=
  (List.range 8).flatMap fun rankIndex =>
    (List.range 8).flatMap fun fileIndex =>
      match getCell board rankIndex fileIndex with
      | some piece =>
          if piece.color = color then
            generatePieceMoves board (indexToSquare rankIndex fileIndex) piece
              enPassantTarget
          else []
      | none => []

/-! ## moveExecutor.ts -/

/-- `MoveExecutionResult` from moveExecutor.ts. -/
structure MoveExecutionResult where
  newBoard : Board
  capturedPiece : Option Piece
  isEnPassant : Bool
  isCastling : Option CastleSide
deriving Repr

/-- `isCastlingMove` from moveExecutor.ts: a king moving exactly two files. -/
def isCastlingMove (board : Board) (move : Move) : Option CastleSide :=
  match getPiece board move.fromSq with
  | none => none
  | some piece =>
    if piece.type ≠ .king then none
    else
      let fromFile : Int := fileIndex move.fromSq.file
      let toFile : Int := fileIndex move.toSq.file
      let fileDiff := toFile - fromFile
      if fileDiff = 2 then some .kingside
      else if fileDiff = -2 then some .queenside
      else none

/-- `executeCastling` from moveExecutor.ts. -/
def executeCastling (board : Board) (move : Move) (castlingSide : CastleSide) : Board :=
  match getPiece board move.fromSq with
  | none => board
  | some king =>
    let backRank := move.fromSq.rank
    let newBoard := setPiece (setPiece board move.fromSq none) move.toSq (some king)
    match castlingSide with
    | .kingside =>
        let rookFrom : Square := { file := .h, rank := backRank }
        let rookTo : Square := { file := .f, rank := backRank }
        match getPiece board rookFrom with
        | some rook => setPiece (setPiece newBoard rookFrom none) rookTo (some rook)
        | none => newBoard
    | .queenside =>
        let rookFrom : Square := { file := .a, rank := backRank }
        let rookTo : Square := { file := .d, rank := backRank }
        match getPiece board rookFrom with
        | some rook => setPiece (setPiece newBoard rookFrom none) rookTo (some rook)
        | none => newBoard

/-- `executeMove` from moveExecutor.ts: the move executor, covering castling,
en passant (the captured pawn sits on the origin's rank and the
destination's file), regular captures and promotion. -/
def executeMove (board : Board) (move : Move) (enPassantTarget : Option Square) :
    MoveExecutionResult :=
  match getPiece board move.fromSq with
  | none => { newBoard := board, capturedPiece := none, isEnPassant := false,
              isCastling := none }
  | some piece =>
    match isCastlingMove board move with
    | some castlingSide =>
        { newBoard := executeCastling board move castlingSide,
          capturedPiece := none, isEnPassant := false,
          isCastling := some castlingSide }
    | none =>
      let epCapture : Bool :=
        piece.type == .pawn && match enPassantTarget with
          | some target => squaresEqual move.toSq target
          | none => false
      let (board1, capturedPiece, isEnPassant) :=
        if epCapture then
          let (fromRank, _) := squareToIndex move.fromSq
          let (_, destFile) := squareToIndex move.toSq
          let capturedPawnSquare := indexToSquare fromRank destFile
          (setPiece board capturedPawnSquare none,
           getPiece board capturedPawnSquare, true)
        else (board, getPiece board move.toSq, false)
      let board2 := setPiece board1 move.fromSq none
      let pieceToPlace : Piece :=
        match move.promotion with
        | some promo => { type := promo, color := piece.color }
        | none => piece
      { newBoard := setPiece board2 move.toSq (some pieceToPlace),
        capturedPiece, isEnPassant, isCastling := none }

/-- The first block of `updateCastlingRights`: a king move clears both of
its color's rights. -/
def clearKingMoveRights (r : CastlingRights) (piece : Piece) : CastlingRights :=
  if piece.type = .king then
    if piece.color = .white then
      { r with whiteKingside := false, whiteQueenside := false }
    else
      { r with blackKingside := false, blackQueenside := false }
  else r

/-- The second block of `updateCastlingRights`: a rook move from an original
corner clears that corner's right. -/
def clearRookMoveRights (r : CastlingRights) (move : Move) (piece : Piece) :
    CastlingRights :=
  if piece.type = .rook then
    if move.fromSq.file = .a ∧ move.fromSq.rank = 1 then
      { r with whiteQueenside := false }
    else if move.fromSq.file = .h ∧ move.fromSq.rank = 1 then
      { r with whiteKingside := false }
    else if move.fromSq.file = .a ∧ move.fromSq.rank = 8 then
      { r with blackQueenside := false }
    else if move.fromSq.file = .h ∧ move.fromSq.rank = 8 then
      { r with blackKingside := false }
    else r
  else r

/-- The third block of `updateCastlingRights`: a rook captured on an
original corner clears that corner's right. -/
def clearRookCaptureRights (r : CastlingRights) (move : Move)
    (capturedPiece : Option Piece) : CastlingRights :=
  match capturedPiece with
  | some captured =>
    if captured.type = .rook then
      if move.toSq.file = .a ∧ move.toSq.rank = 1 then
        { r with whiteQueenside := false }
      else if move.toSq.file = .h ∧ move.toSq.rank = 1 then
        { r with whiteKingside := false }
      else if move.toSq.file = .a ∧ move.toSq.rank = 8 then
        { r with blackQueenside := false }
      else if move.toSq.file = .h ∧ move.toSq.rank = 8 then
        { r with blackKingside := false }
      else r
    else r
  | none => r

/-- `updateCastlingRights` from moveExecutor.ts: king moves clear both of a
color's rights, rook moves from a corner clear that corner's right, and a
rook captured on a corner clears that corner's right — three sequential
blocks over a copy of the rights, exactly as in the source. -/
def updateCastlingRights (castlingRights : CastlingRights) (move : Move)
    (piece : Piece) (capturedPiece : Option Piece) : CastlingRights :=
  clearRookCaptureRights
    (clearRookMoveRights (clearKingMoveRights castlingRights piece) move piece)
    move capturedPiece

/-- `calculateEnPassantTarget` from moveExecutor.ts: set only on a pawn
double move, to the square passed through (rank 3 for white, 6 for black). -/
def calculateEnPassantTarget (move : Move) (piece : Piece) : Option Square :=
  if piece.type ≠ .pawn then none
  else
    let rankDiff := ((move.toSq.rank : Int) - (move.fromSq.rank : Int)).natAbs
    if rankDiff ≠ 2 then none
    else
      let targetRank : Nat := if piece.color = .white then 3 else 6
      some { file := move.fromSq.file, rank := targetRank }

/-- `requiresPromotion` from moveExecutor.ts. -/
def requiresPromotion (move : Move) (piece : Piece) : Bool :=
  if piece.type ≠ .pawn then false
  else
    let promotionRank : Nat := if piece.color = .white then 8 else 1
    move.toSq.rank = promotionRank

/-- `isValidPromotion` from moveExecutor.ts. -/
def isValidPromotion (move : Move) (piece : Piece) : Bool :=
  if ¬ requiresPromotion move piece then true
  else
    match move.promotion with
    | none => false
    | some promo => [PieceType.queen, .rook, .bishop, .knight].contains promo

/-! ## types.ts: `GameState` and `MoveRecord`

A `MoveRecord` embeds a full snapshot of the prior `GameState`, and a
`GameState` holds the list of `MoveRecord`s, so the two are mutually
inductive. -/

mutual

inductive GameState where
  | mk (board : Board) (currentPlayer : Color) (castlingRights : CastlingRights)
      (enPassantTarget : Option Square) (halfMoveClock : Nat)
      (fullMoveNumber : Nat) (moveHistory : List MoveRecord)
      (positionHistory : List String) : GameState

inductive MoveRecord where
  | mk (move : Move) (piece : Piece) (captured : Option Piece) (isCheck : Bool)
      (isCheckmate : Bool) (isCastling : Option CastleSide) (isEnPassant : Bool)
      (previousState : GameState) : MoveRecord

end

def GameState.board : GameState → Board
  | .mk b _ _ _ _ _ _ _ => b

def GameState.currentPlayer : GameState → Color
  | .mk _ p _ _ _ _ _ _ => p

def GameState.castlingRights : GameState → CastlingRights
  | .mk _ _ c _ _ _ _ _ => c

def GameState.enPassantTarget : GameState → Option Square
  | .mk _ _ _ e _ _ _ _ => e

def GameState.halfMoveClock : GameState → Nat
  | .mk _ _ _ _ h _ _ _ => h

def GameState.fullMoveNumber : GameState → Nat
  | .mk _ _ _ _ _ f _ _ => f

def GameState.moveHistory : GameState → List MoveRecord
  | .mk _ _ _ _ _ _ m _ => m

def GameState.positionHistory : GameState → List String
  | .mk _ _ _ _ _ _ _ p => p

def MoveRecord.move : MoveRecord → Move
  | .mk m _ _ _ _ _ _ _ => m

def MoveRecord.piece : MoveRecord → Piece
  | .mk _ p _ _ _ _ _ _ => p

def MoveRecord.captured : MoveRecord → Option Piece
  | .mk _ _ c _ _ _ _ _ => c

def MoveRecord.previousState : MoveRecord → GameState
  | .mk _ _ _ _ _ _ _ s => s

/-- The `color === 'white' ? 'black' : 'white'` opponent computation. -/
def oppositeColor (color : Color) : Color :=
  if color = .white then .black else .white

/-! ## gameStateChecker.ts: state-level checks -/

/-- `isCheck` from gameStateChecker.ts. -/
def isCheck (state : GameState) (color : Color) : Bool :=
  match getKingSquare state.board color with
  | none => false
  | some kingSquare => isSquareAttacked state.board kingSquare (oppositeColor color)

/-- `applyMoveToBoardLocal` from gameStateChecker.ts: the status checker's
own simulation.  Unlike the validator's `applyMoveToBoard`, it relocates the
castling rook (for a king moving e→g or e→c) and removes the pawn captured
en passant (a pawn moving diagonally onto an empty square). -/
def applyMoveToBoardLocal (board : Board) (move : Move) : Board :=
  match getPiece board move.fromSq with
  | none => board
  | some piece =>
    let board1 := setPiece board move.fromSq none
    let pieceToPlace : Piece :=
      match move.promotion with
      | some promo => { type := promo, color := piece.color }
      | none => piece
    let board2 := setPiece board1 move.toSq (some pieceToPlace)
    let board3 :=
      if piece.type = .king then
        if move.fromSq.file = .e ∧ move.toSq.file = .g then
          let rookFrom : Square := { file := .h, rank := move.fromSq.rank }
          let rookTo : Square := { file := .f, rank := move.fromSq.rank }
          match getPiece board2 rookFrom with
          | some rook => setPiece (setPiece board2 rookFrom none) rookTo (some rook)
          | none => board2
        else if move.fromSq.file = .e ∧ move.toSq.file = .c then
          let rookFrom : Square := { file := .a, rank := move.fromSq.rank }
          let rookTo : Square := { file := .d, rank := move.fromSq.rank }
          match getPiece board2 rookFrom with
          | some rook => setPiece (setPiece board2 rookFrom none) rookTo (some rook)
          | none => board2
        else board2
      else board2
    if piece.type = .pawn then
      let (_, fromFileIndex) := squareToIndex move.fromSq
      let (_, toFileIndex) := squareToIndex move.toSq
      let targetPiece := getPiece board move.toSq
      if fromFileIndex ≠ toFileIndex ∧ targetPiece.isNone then
        setPiece board3 { file := move.toSq.file, rank := move.fromSq.rank } none
      else board3
    else board3

/-- `wouldBeInCheckLocal` from gameStateChecker.ts. -/
def wouldBeInCheckLocal (state : GameState) (move : Move) : Bool :=
  match getPiece state.board move.fromSq with
  | none => true
  | some piece =>
    let color := piece.color
    let newBoard := applyMoveToBoardLocal state.board move
    match getKingSquare newBoard color with
    | none => true
    | some kingSquare => isSquareAttacked newBoard kingSquare (oppositeColor color)

/-- `generateLegalMovesForColor` from gameStateChecker.ts: pseudo-legal moves
plus castling, filtered through the checker's own king-safety simulation. -/
def generateLegalMovesForColor (state : GameState) (color : Color) : List Move :=
  let pseudoLegalMoves :=
    generateAllPseudoLegalMoves state.board color state.enPassantTarget ++
      generateCastlingMoves state.board color state.castlingRights
  pseudoLegalMoves.filter fun move => ¬ wouldBeInCheckLocal state move

/-- `isCheckmate` from gameStateChecker.ts. -/
def isCheckmate (state : GameState) : Bool :=
  if ¬ isCheck state state.currentPlayer then false
  else (generateLegalMovesForColor state state.currentPlayer).isEmpty

/-- `isStalemate` from gameStateChecker.ts. -/
def isStalemate (state : GameState) : Bool :=
  if isCheck state state.currentPlayer then false
  else (generateLegalMovesForColor state state.currentPlayer).isEmpty

/-- The square-color classification used by `isInsufficientMaterial`. -/
inductive SquareShade where
  | dark
  | light
deriving DecidableEq, Repr

/-- `isInsufficientMaterial` from gameStateChecker.ts: king vs king, king
plus one minor vs king, or king+bishop vs king+bishop with same-shade
bishops. -/
def isInsufficientMaterial (state : GameState) : Bool :=
  let pieces : List (PieceType × Color × SquareShade) :=
    (List.range 8).flatMap fun rankIndex =>
      (List.range 8).flatMap fun fileIndex =>
        match getCell state.board rankIndex fileIndex with
        | some piece =>
            let squareColor : SquareShade :=
              if (rankIndex + fileIndex) % 2 = 0 then .dark else .light
            [(piece.type, piece.color, squareColor)]
        | none => []
  let kings := pieces.filter fun p => p.1 = .king
  let bishops := pieces.filter fun p => p.1 = .bishop
  let knights := pieces.filter fun p => p.1 = .knight
  if pieces.length = 2 then kings.length = 2
  else if pieces.length = 3 then
    kings.length = 2 ∧ (bishops.length = 1 ∨ knights.length = 1)
  else if pieces.length = 4 then
    if kings.length = 2 ∧ bishops.length = 2 then
      let whiteBishop := bishops.find? fun b => b.2.1 = .white
      let blackBishop := bishops.find? fun b => b.2.1 = .black
      match whiteBishop, blackBishop with
      | some wb, some bb => wb.2.2 = bb.2.2
      | _, _ => false
    else false
  else false

/-- `isThreefoldRepetition` from gameStateChecker.ts: the most recent hash in
the position history occurs at least 3 times. -/
def isThreefoldRepetition (state : GameState) : Bool :=
  if state.positionHistory.length < 3 then false
  else
    match state.positionHistory.getLast? with
    | none => false
    | some currentPosition =>
        3 ≤ (state.positionHistory.filter fun p => p = currentPosition).length

/-- `isFiftyMoveRule` from gameStateChecker.ts. -/
def isFiftyMoveRule (state : GameState) : Bool :=
  100 ≤ state.halfMoveClock

/-- `DrawReason` from types.ts. -/
inductive DrawReason where
  | stalemate
  | insufficientMaterial
  | threefoldRepetition
  | fiftyMoveRule
deriving DecidableEq, Repr

/-- `GameStatus` from types.ts. -/
inductive GameStatus where
  | active (inCheck : Bool)
  | checkmate (winner : Color)
  | draw (reason : DrawReason)
deriving DecidableEq, Repr

/-- `getDrawReason` from gameStateChecker.ts: stalemate, insufficient
material, threefold repetition, fifty-move rule, in that order. -/
def getDrawReason (state : GameState) : Option DrawReason :=
  if isStalemate state then some .stalemate
  else if isInsufficientMaterial state then some .insufficientMaterial
  else if isThreefoldRepetition state then some .threefoldRepetition
  else if isFiftyMoveRule state then some .fiftyMoveRule
  else none

/-- `getGameStatus` from gameStateChecker.ts. -/
def getGameStatus (state : GameState) : GameStatus :=
  if isCheckmate state then .checkmate (oppositeColor state.currentPlayer)
  else
    match getDrawReason state with
    | some drawReason => .draw drawReason
    | none => .active (isCheck state state.currentPlayer)

/-- Whether a status is the `active` variant. -/
def GameStatus.isActive : GameStatus → Bool
  | .active _ => true
  | _ => false

/-! ## moveValidator.ts -/

/-- `applyMoveToBoard` from moveValidator.ts.  The source comments that this
simulation handles basic moves, captures and castling but "does not handle
en passant yet": a pawn capturing en passant is merely relocated, and the
captured pawn stays on the board. -/
def applyMoveToBoard (board : Board) (move : Move) : Board :=
  match getPiece board move.fromSq with
  | none => board
  | some piece =>
    match isCastlingMove board move with
    | some castlingSide => executeCastling board move castlingSide
    | none =>
      let newBoard := setPiece board move.fromSq none
      let pieceToPlace : Piece :=
        match move.promotion with
        | some promo => { type := promo, color := piece.color }
        | none => piece
      setPiece newBoard move.toSq (some pieceToPlace)

/-- `wouldBeInCheck` from moveValidator.ts. -/
def wouldBeInCheck (state : GameState) (move : Move) : Bool :=
  match getPiece state.board move.fromSq with
  | none => true
  | some piece =>
    let color := piece.color
    let newBoard := applyMoveToBoard state.board move
    match getKingSquare newBoard color with
    | none => true
    | some kingSquare => isSquareAttacked newBoard kingSquare (oppositeColor color)

/-- `isLegalMove` from moveValidator.ts: right color, pseudo-legal membership
(destination and promotion must match), and the king-safety simulation. -/
def isLegalMove (state : GameState) (move : Move) : Bool :=
  match getPiece state.board move.fromSq with
  | none => false
  | some piece =>
    if piece.color ≠ state.currentPlayer then false
    else
      let pseudoLegalMoves :=
        generatePieceMoves state.board move.fromSq piece state.enPassantTarget
      let isPseudoLegal := pseudoLegalMoves.any fun m =>
        squaresEqual m.toSq move.toSq && m.promotion == move.promotion
      if ¬ isPseudoLegal then false
      else ¬ wouldBeInCheck state move

/-- `generateLegalMovesForPiece` from moveValidator.ts. -/
def generateLegalMovesForPiece (state : GameState) (square : Square) : List Move :=
  match getPiece state.board square with
  | none => []
  | some piece =>
    if piece.color ≠ state.currentPlayer then []
    else
      let pseudoLegalMoves :=
        generatePieceMoves state.board square piece state.enPassantTarget
      let pseudoLegalMoves :=
        if piece.type = .king then
          pseudoLegalMoves ++
            generateCastlingMoves state.board piece.color state.castlingRights
        else pseudoLegalMoves
      pseudoLegalMoves.filter fun move => ¬ wouldBeInCheck state move

/-- `generateAllLegalMoves` from moveValidator.ts: all pseudo-legal moves for
the current player plus castling, filtered through the validator's
simulation. -/
def generateAllLegalMoves (state : GameState) : List Move :=
  let pseudoLegalMoves :=
    generateAllPseudoLegalMoves state.board state.currentPlayer
        state.enPassantTarget ++
      generateCastlingMoves state.board state.currentPlayer state.castlingRights
  pseudoLegalMoves.filter fun move => ¬ wouldBeInCheck state move

/-! ## chessEngine.ts -/

/-- The name of a piece type (`piece.type` in the source). -/
def typeName : PieceType → String
  | .king => "king"
  | .queen => "queen"
  | .rook => "rook"
  | .bishop => "bishop"
  | .knight => "knight"
  | .pawn => "pawn"

/-- The name of a color (`piece.color` in the source). -/
def colorName : Color → String
  | .white => "white"
  | .black => "black"

/-- The letter of a file (`square.file` in the source). -/
def fileName : File → String
  | .a => "a"
  | .b => "b"
  | .c => "c"
  | .d => "d"
  | .e => "e"
  | .f => "f"
  | .g => "g"
  | .h => "h"

/-- `generatePositionHash` from chessEngine.ts: each cell becomes
`piece.color[0]` followed by `piece.type[0]` (the first letter of the color
and type names) or `--`; ranks are joined by `/`; then side to move,
castling letters (or `-`) and the en passant square (or `-`), separated by
`|`. -/
def generatePositionHash (state : GameState) : String :=
  let boardStr := String.intercalate "/" (state.board.map fun rank =>
    String.join (rank.map fun cell =>
      match cell with
      | some piece => (colorName piece.color).take 1 ++ (typeName piece.type).take 1
      | none => "--"))
  let castlingStr := String.join
    [if state.castlingRights.whiteKingside then "K" else "",
     if state.castlingRights.whiteQueenside then "Q" else "",
     if state.castlingRights.blackKingside then "k" else "",
     if state.castlingRights.blackQueenside then "q" else ""]
  let epStr :=
    match state.enPassantTarget with
    | some target => fileName target.file ++ toString target.rank
    | none => "-"
  boardStr ++ "|" ++ colorName state.currentPlayer ++ "|" ++
    (if castlingStr = "" then "-" else castlingStr) ++ "|" ++ epStr

/-- `createInitialState` from chessEngine.ts: canonical opening position,
full rights, no target, zero clocks, empty move history and one initial
position hash. -/
def createInitialState : GameState :=
  let base : GameState := .mk (cloneBoard INITIAL_BOARD) .white
    { whiteKingside := true, whiteQueenside := true,
      blackKingside := true, blackQueenside := true }
    none 0 1 [] []
  .mk base.board base.currentPlayer base.castlingRights base.enPassantTarget
    base.halfMoveClock base.fullMoveNumber [] [generatePositionHash base]

/-- `cloneGameState` from chessEngine.ts: a deep copy, the identity on pure
values. -/
def cloneGameState (state : GameState) : GameState := state

/-- `MoveError` from types.ts. -/
inductive MoveError where
  | noPiece (square : Square)
  | wrongColor (expected actual : Color)
  | illegalMove (reason : String)
  | gameOver
deriving DecidableEq, Repr

/-- `UndoError` from types.ts. -/
inductive UndoError where
  | noMovesToUndo
deriving DecidableEq, Repr

/-- `Result` from types.ts. -/
inductive Result (T E : Type) where
  | ok (value : T)
  | error (e : E)

/-- The success path of `ChessEngine.makeMove`: execute the move, recompute
rights, target, clocks, move number and side to move, compute the post-move
check flags, and append the move record (with its pre-move snapshot) and the
new position hash. -/
def makeMoveCommit (s : GameState) (move : Move) (piece : Piece) : GameState :=
  let previousState := cloneGameState s
  let result := executeMove s.board move s.enPassantTarget
  let newCastlingRights :=
    updateCastlingRights s.castlingRights move piece result.capturedPiece
  let newEnPassantTarget := calculateEnPassantTarget move piece
  let newHalfMoveClock :=
    if piece.type = .pawn ∨ result.capturedPiece.isSome then 0
    else s.halfMoveClock + 1
  let newFullMoveNumber :=
    if s.currentPlayer = .black then s.fullMoveNumber + 1
    else s.fullMoveNumber
  let newCurrentPlayer := oppositeColor s.currentPlayer
  let newState : GameState := .mk result.newBoard newCurrentPlayer
    newCastlingRights newEnPassantTarget newHalfMoveClock
    newFullMoveNumber s.moveHistory s.positionHistory
  let isCheckAfterMove := isCheck newState newCurrentPlayer
  let isCheckmateAfterMove := isCheckmate newState
  let moveRecord : MoveRecord := .mk move piece result.capturedPiece
    isCheckAfterMove isCheckmateAfterMove result.isCastling
    result.isEnPassant previousState
  .mk result.newBoard newCurrentPlayer newCastlingRights newEnPassantTarget
    newHalfMoveClock newFullMoveNumber (s.moveHistory ++ [moveRecord])
    (s.positionHistory ++ [generatePositionHash newState])

/-- `ChessEngine.makeMove`: the ordered checks (game over, missing piece,
wrong color, missing promotion, invalid promotion, illegality), then
execution and bookkeeping.  The engine's mutable `this.state` becomes the
first component of the returned pair: on failure it is the input state,
on success the committed successor. -/
def engineMakeMove (s : GameState) (move : Move) :
    GameState × Result GameState MoveError :=
  if ¬ (getGameStatus s).isActive then (s, .error .gameOver)
  else
    match getPiece s.board move.fromSq with
    | none => (s, .error (.noPiece move.fromSq))
    | some piece =>
      if piece.color ≠ s.currentPlayer then
        (s, .error (.wrongColor s.currentPlayer piece.color))
      else if requiresPromotion move piece ∧ move.promotion.isNone then
        (s, .error (.illegalMove "Promotion piece must be specified"))
      else if ¬ isValidPromotion move piece then
        (s, .error (.illegalMove "Invalid promotion piece"))
      else if ¬ isLegalMove s move then
        (s, .error (.illegalMove "Move is not legal"))
      else
        let committed := makeMoveCommit s move piece
        (committed, .ok (cloneGameState committed))

/-- `ChessEngine.undoMove`: pop the last record and reinstate its snapshot. -/
def engineUndoMove (s : GameState) : GameState × Result GameState UndoError :=
  match s.moveHistory.getLast? with
  | none => (s, .error .noMovesToUndo)
  | some lastMoveRecord =>
      let restored := cloneGameState lastMoveRecord.previousState
      (restored, .ok (cloneGameState restored))

/-- `ChessEngine.newGame`. -/
def engineNewGame (_s : GameState) : GameState := createInitialState

/-- `ChessEngine.canUndo`. -/
def engineCanUndo (s : GameState) : Bool :=
  0 < s.moveHistory.length

/-- `ChessEngine.getLegalMoves`: the empty list when the game is over,
otherwise the validator's per-piece legal moves. -/
def engineGetLegalMoves (s : GameState) (square : Square) : List Move :=
  if ¬ (getGameStatus s).isActive then []
  else generateLegalMovesForPiece s square

/-! ## JSON values and `JSON.parse`

`toJSON`/`fromJSON` run through `JSON.stringify`/`JSON.parse`.  We embed
JSON values and the standard JSON grammar (objects, arrays, strings,
integer numbers, booleans, null) that the serialized-state strings use. -/

/-- A parsed JSON value (numbers restricted to integers, which is all the
serialized state shape produces). -/
inductive Json where
  | null
  | bool (b : Bool)
  | num (n : Int)
  | str (s : String)
  | arr (items : List Json)
  | obj (fields : List (String × Json))

/-- Property access `value.key`: a named field of an object (last duplicate
wins, as in `JSON.parse`), `undefined` (`none`) on everything else. -/
def jsGet (value : Json) (key : String) : Option Json :=
  match value with
  | .obj fields => (fields.reverse.find? fun f => f.1 == key).map (·.2)
  | _ => none

/-- JavaScript truthiness of a JSON value. -/
def jsTruthy : Json → Bool
  | .null => false
  | .bool b => b
  | .num n => n ≠ 0
  | .str s => s ≠ ""
  | .arr _ => true
  | .obj _ => true

/-- Skip JSON whitespace. -/
def skipWs : List Char → List Char
  | c :: cs => if c = ' ' ∨ c = '\n' ∨ c = '\t' ∨ c = '\r' then skipWs cs else c :: cs
  | [] => []

/-- Parse the remainder of a string literal after the opening quote,
handling the simple escapes. -/
def parseStringRest : List Char → List Char → Option (String × List Char)
  | '"' :: cs, acc => some (String.mk acc.reverse, cs)
  | '\\' :: c :: cs, acc =>
      match c with
      | '"' => parseStringRest cs ('"' :: acc)
      | '\\' => parseStringRest cs ('\\' :: acc)
      | '/' => parseStringRest cs ('/' :: acc)
      | 'n' => parseStringRest cs ('\n' :: acc)
      | 't' => parseStringRest cs ('\t' :: acc)
      | 'r' => parseStringRest cs ('\r' :: acc)
      | _ => none
  | c :: cs, acc => parseStringRest cs (c :: acc)
  | [], _ => none

/-- Consume a maximal run of digits onto an accumulator. -/
def parseDigits : List Char → Nat → Nat × List Char
  | d :: ds, acc =>
      if d.isDigit then parseDigits ds (acc * 10 + (d.toNat - 48))
      else (acc, d :: ds)
  | [], acc => (acc, [])

/-- Consume a number (at least one digit). -/
def parseNumber (cs : List Char) : Option (Nat × List Char) :=
  match cs with
  | c :: rest =>
      if c.isDigit then some (parseDigits rest (c.toNat - 48))
      else none
  | [] => none

mutual

/-- Parse one JSON value (fueled; fuel one larger than the input length is
always enough, since every value and separator consumes a character). -/
def parseValue : Nat → List Char → Option (Json × List Char)
  | 0, _ => none
  | fuel + 1, cs =>
    match skipWs cs with
    | 'n' :: 'u' :: 'l' :: 'l' :: rest => some (.null, rest)
    | 't' :: 'r' :: 'u' :: 'e' :: rest => some (.bool true, rest)
    | 'f' :: 'a' :: 'l' :: 's' :: 'e' :: rest => some (.bool false, rest)
    | '"' :: rest => (parseStringRest rest []).map fun (s, r) => (.str s, r)
    | '[' :: rest =>
        (match skipWs rest with
         | ']' :: r2 => some (.arr [], r2)
         | other => (parseItems fuel other).map fun (items, r2) => (.arr items, r2))
    | '{' :: rest =>
        (match skipWs rest with
         | '}' :: r2 => some (.obj [], r2)
         | other => (parseFields fuel other).map fun (fields, r2) => (.obj fields, r2))
    | '-' :: rest =>
        (parseNumber rest).map fun (n, r) => (.num (-(n : Int)), r)
    | other =>
        (parseNumber other).map fun (n, r) => (.num (n : Int), r)

/-- Parse the items of a non-empty array, up to and including `]`. -/
def parseItems : Nat → List Char → Option (List Json × List Char)
  | 0, _ => none
  | fuel + 1, cs =>
    match parseValue fuel cs with
    | none => none
    | some (item, rest) =>
      match skipWs rest with
      | ',' :: r2 => (parseItems fuel r2).map fun (items, r3) => (item :: items, r3)
      | ']' :: r2 => some ([item], r2)
      | _ => none

/-- Parse the fields of a non-empty object, up to and including `}`. -/
def parseFields : Nat → List Char → Option (List (String × Json) × List Char)
  | 0, _ => none
  | fuel + 1, cs =>
    match skipWs cs with
    | '"' :: rest =>
      match parseStringRest rest [] with
      | none => none
      | some (key, rest2) =>
        match skipWs rest2 with
        | ':' :: rest3 =>
          match parseValue fuel rest3 with
          | none => none
          | some (value, rest4) =>
            match skipWs rest4 with
            | ',' :: r2 =>
                (parseFields fuel r2).map fun (fields, r3) => ((key, value) :: fields, r3)
            | '}' :: r2 => some ([(key, value)], r2)
            | _ => none
        | _ => none
    | _ => none

end

/-- `JSON.parse`: parse one value, requiring the whole input be consumed. -/
def jsonParse (input : String) : Option Json :=
  match parseValue (input.length + 1) input.data with
  | some (value, rest) => if (skipWs rest).isEmpty then some value else none
  | none => none

/-! ## chessEngine.ts: serialization -/

/-- The board-cell serializer inside `gameStateToJSON`. -/
def pieceToJSON (cell : Option Piece) : Json :=
  match cell with
  | some piece =>
      .obj [("type", .str (typeName piece.type)),
            ("color", .str (colorName piece.color))]
  | none => .null

/-- `gameStateToJSON` from chessEngine.ts: the `SerializedGameState` shape
(board, side to move, castling rights, en passant target, clocks, position
history; never the move history). -/
def gameStateToJSON (state : GameState) : Json :=
  .obj
    [("board", .arr (state.board.map fun rank => .arr (rank.map pieceToJSON))),
     ("currentPlayer", .str (colorName state.currentPlayer)),
     ("castlingRights", .obj
        [("whiteKingside", .bool state.castlingRights.whiteKingside),
         ("whiteQueenside", .bool state.castlingRights.whiteQueenside),
         ("blackKingside", .bool state.castlingRights.blackKingside),
         ("blackQueenside", .bool state.castlingRights.blackQueenside)]),
     ("enPassantTarget",
        match state.enPassantTarget with
        | some target =>
            .obj [("file", .str (fileName target.file)),
                  ("rank", .num (target.rank : Int))]
        | none => .null),
     ("halfMoveClock", .num (state.halfMoveClock : Int)),
     ("fullMoveNumber", .num (state.fullMoveNumber : Int)),
     ("positionHistory", .arr (state.positionHistory.map .str))]

/-- A board cell as `gameStateFromJSON` builds it: `none` for a falsy cell,
otherwise the (possibly `undefined`) `type` and `color` properties. -/
def JsCell := Option (Option Json × Option Json)

/-- The untyped state object `gameStateFromJSON` builds.  TypeScript casts
the raw properties to the `GameState` field types without checking them, so
the fields here keep their raw JSON values. -/
structure JsGameState where
  board : List (List JsCell)
  currentPlayer : Option Json
  castlingRights : List (String × Json)
  enPassantTarget : Option (Option Json × Option Json)
  halfMoveClock : Option Json
  fullMoveNumber : Option Json
  moveHistory : List Json
  positionHistory : List Json

/-- One cell of `json.board.map(rank => rank.map(piece => piece ? {...} : null))`. -/
def jsCellOf (piece : Json) : JsCell :=
  if jsTruthy piece then some (jsGet piece "type", jsGet piece "color")
  else none

/-- Object spread `{...value}`: the fields of an object, nothing otherwise
(spreading `undefined`, `null`, numbers or booleans contributes no
enumerable properties; a string would contribute only index-keyed
properties, which no later lookup reads). -/
def jsSpreadObj : Option Json → List (String × Json)
  | some (.obj fields) => fields
  | _ => []

/-- Array spread `[...value]`: the elements of an array, the characters of a
string, a TypeError (modelled as `Except.error`) otherwise. -/
def jsSpreadArr : Option Json → Except Unit (List Json)
  | some (.arr items) => .ok items
  | some (.str s) => .ok (s.data.map fun c => .str (String.mk [c]))
  | _ => .error ()

/-- The nested `.map` over `json.board`: each rank must itself be an array
(anything else throws), and each cell goes through the truthiness check. -/
def boardRanksFromJSON : List Json → Except Unit (List (List JsCell))
  | [] => .ok []
  | .arr cells :: rest =>
      match boardRanksFromJSON rest with
      | .ok ranks => .ok ((cells.map jsCellOf) :: ranks)
      | .error e => .error e
  | _ :: _ => .error ()

/-- `gameStateFromJSON` from chessEngine.ts with JavaScript semantics: the
only operations that can throw on a parsed value are `.map` on a
non-array `board` (or rank) and the array spread of `positionHistory`;
everything else silently produces possibly-`undefined` fields.  The move
history is always rebuilt empty. -/
def gameStateFromJSONJs (json : Json) : Except Unit JsGameState := do
  let board ←
    match jsGet json "board" with
    | some (.arr ranks) => boardRanksFromJSON ranks
    | _ => .error ()
  let positionHistory ← jsSpreadArr (jsGet json "positionHistory")
  .ok
    { board
      currentPlayer := jsGet json "currentPlayer"
      castlingRights := jsSpreadObj (jsGet json "castlingRights")
      enPassantTarget :=
        match jsGet json "enPassantTarget" with
        | some target =>
            if jsTruthy target then some (jsGet target "file", jsGet target "rank")
            else none
        | none => none
      halfMoveClock := jsGet json "halfMoveClock"
      fullMoveNumber := jsGet json "fullMoveNumber"
      moveHistory := []
      positionHistory }

/-- `ChessEngine.fromJSON`, observed at its result: parse failure or a
deserializer throw is caught as the invalid-json error; otherwise the built
state is committed as current and returned. -/
def engineFromJSON (input : String) : Except Unit JsGameState :=
  match jsonParse input with
  | none => .error ()
  | some json => gameStateFromJSONJs json

/-- The committed position-history length of a `fromJSON` outcome. -/
def outcomePosLen : Except Unit JsGameState → Option Nat
  | .ok state => some state.positionHistory.length
  | .error _ => none

/-- The committed move-history length of a `fromJSON` outcome. -/
def outcomeMoveLen : Except Unit JsGameState → Option Nat
  | .ok state => some state.moveHistory.length
  | .error _ => none

/-- Whether a `fromJSON` outcome committed a state (returned ok). -/
def outcomeOk : Except Unit JsGameState → Bool
  | .ok _ => true
  | .error _ => false

/-- The inverse of `typeName`. -/
def typeOfName (s : String) : Option PieceType :=
  if s = "king" then some .king
  else if s = "queen" then some .queen
  else if s = "rook" then some .rook
  else if s = "bishop" then some .bishop
  else if s = "knight" then some .knight
  else if s = "pawn" then some .pawn
  else none

/-- The inverse of `colorName`. -/
def colorOfName (s : String) : Option Color :=
  if s = "white" then some .white
  else if s = "black" then some .black
  else none

/-- The inverse of `fileName`. -/
def fileOfName (s : String) : Option File :=
  if s = "a" then some .a
  else if s = "b" then some .b
  else if s = "c" then some .c
  else if s = "d" then some .d
  else if s = "e" then some .e
  else if s = "f" then some .f
  else if s = "g" then some .g
  else if s = "h" then some .h
  else none

/-- The serialized state shape (the `SerializedGameState` interface of
chessEngine.ts together with §6 of the spec): a board of (piece | null)
cells, a side to move, the four boolean castling rights, an optional
en-passant square, numeric clocks and a string position history. -/
def isValidSerializedGameState (json : Json) : Bool :=
  let cellOk : Json → Bool := fun cell =>
    match cell with
    | .null => true
    | .obj _ =>
        (match jsGet cell "type" with
         | some (Json.str t) => (typeOfName t).isSome
         | _ => false) &&
        (match jsGet cell "color" with
         | some (Json.str c) => (colorOfName c).isSome
         | _ => false)
    | _ => false
  let boardOk : Bool :=
    match jsGet json "board" with
    | some (.arr ranks) =>
        ranks.length == 8 && ranks.all fun rank =>
          match rank with
          | .arr cells => cells.length == 8 && cells.all cellOk
          | _ => false
    | _ => false
  let playerOk : Bool :=
    match jsGet json "currentPlayer" with
    | some (Json.str c) => (colorOfName c).isSome
    | _ => false
  let castlingOk : Bool :=
    [("whiteKingside" : String), "whiteQueenside", "blackKingside",
     "blackQueenside"].all fun key =>
      match jsGet json "castlingRights" with
      | some rights =>
          match jsGet rights key with
          | some (Json.bool _) => true
          | _ => false
      | none => false
  let epOk : Bool :=
    match jsGet json "enPassantTarget" with
    | some .null => true
    | some target =>
        (match jsGet target "file" with
         | some (Json.str f) => (fileOfName f).isSome
         | _ => false) &&
        (match jsGet target "rank" with
         | some (Json.num r) => 1 ≤ r && r ≤ 8
         | _ => false)
    | none => false
  let clocksOk : Bool :=
    (match jsGet json "halfMoveClock" with
     | some (Json.num n) => 0 ≤ n
     | _ => false) &&
    (match jsGet json "fullMoveNumber" with
     | some (Json.num n) => 0 ≤ n
     | _ => false)
  let historyOk : Bool :=
    match jsGet json "positionHistory" with
    | some (.arr items) => items.all fun item =>
        match item with
        | .str _ => true
        | _ => false
    | _ => false
  boardOk && playerOk && castlingOk && epOk && clocksOk && historyOk

/-- Read one raw cell back into a typed cell. -/
def decodeJsCell : JsCell → Option (Option Piece)
  | none => some none
  | some (some (.str t), some (.str c)) =>
      match typeOfName t, colorOfName c with
      | some pieceType, some color => some (some { type := pieceType, color })
      | _, _ => none
  | some _ => none

/-- Read a JSON string value back. -/
def decodeStr : Json → Option String
  | .str s => some s
  | _ => none

/-- Read a list of JSON strings back. -/
def decodeStrings : List Json → Option (List String)
  | [] => some []
  | item :: rest =>
      match decodeStr item, decodeStrings rest with
      | some s, some ss => some (s :: ss)
      | _, _ => none

/-- Read one raw rank back into a typed rank. -/
def decodeJsRank : List JsCell → Option (List (Option Piece))
  | [] => some []
  | cell :: rest =>
      match decodeJsCell cell, decodeJsRank rest with
      | some c, some cs => some (c :: cs)
      | _, _ => none

/-- Read a raw board back into a typed board. -/
def decodeJsBoard : List (List JsCell) → Option Board
  | [] => some []
  | rank :: rest =>
      match decodeJsRank rank, decodeJsBoard rest with
      | some r, some rs => some (r :: rs)
      | _, _ => none

/-- Read a raw committed state back into a typed `GameState`, failing if any
field does not carry well-typed data. -/
def decodeJsGameState (js : JsGameState) : Option GameState := do
  let board ← decodeJsBoard js.board
  let currentPlayer ←
    match js.currentPlayer with
    | some (.str c) => colorOfName c
    | _ => none
  let flag : String → Option Bool := fun key =>
    match (js.castlingRights.reverse.find? fun f => f.1 == key).map (fun f => f.2) with
    | some (Json.bool b) => some b
    | _ => none
  let whiteKingside ← flag "whiteKingside"
  let whiteQueenside ← flag "whiteQueenside"
  let blackKingside ← flag "blackKingside"
  let blackQueenside ← flag "blackQueenside"
  let enPassantTarget ←
    match js.enPassantTarget with
    | none => some none
    | some (some (.str f), some (.num r)) =>
        match fileOfName f with
        | some file => if 0 ≤ r then some (some ⟨file, r.toNat⟩) else none
        | none => none
    | some _ => none
  let halfMoveClock ←
    match js.halfMoveClock with
    | some (.num n) => if 0 ≤ n then some n.toNat else none
    | _ => none
  let fullMoveNumber ←
    match js.fullMoveNumber with
    | some (.num n) => if 0 ≤ n then some n.toNat else none
    | _ => none
  let positionHistory ← decodeStrings js.positionHistory
  some (.mk board currentPlayer
    { whiteKingside, whiteQueenside, blackKingside, blackQueenside }
    enPassantTarget halfMoveClock fullMoveNumber [] positionHistory)

/-- Serialize, deserialize with the source's JavaScript semantics, then read
the committed raw state back into typed form. -/
def jsonRoundTrip (state : GameState) : Option GameState :=
  match gameStateFromJSONJs (gameStateToJSON state) with
  | .ok js => decodeJsGameState js
  | .error _ => none

/-! ## Engine operation sequences

The engine's public mutating operations, as a step function on the current
state, so that reachability claims quantify over operation lists. -/

/-- One public mutating engine call (serialization aside). -/
inductive EngineOp where
  | newGameOp
  | makeMoveOp (move : Move)
  | undoMoveOp
deriving Repr

/-- The engine's current state after one call. -/
def engineStep (s : GameState) : EngineOp → GameState
  | .newGameOp => engineNewGame s
  | .makeMoveOp move => (engineMakeMove s move).1
  | .undoMoveOp => (engineUndoMove s).1

/-- The engine's current state after a sequence of calls on a fresh engine. -/
def engineRun (ops : List EngineOp) : GameState :=
  ops.foldl engineStep createInitialState

/-- The engine's current state after a sequence of `makeMove` calls
(accepted or rejected) from an arbitrary state. -/
def runMakeMoves (s : GameState) (moves : List Move) : GameState :=
  moves.foldl (fun state move => (engineMakeMove state move).1) s

/-! ## Concrete test positions -/

/-- A board with no pieces. -/
def emptyBoard : Board := List.replicate 8 emptyRank

/-- Place a list of pieces on an empty board. -/
def placeBoard (pieces : List (Square × Piece)) : Board :=
  pieces.foldl (fun board sp => setPiece board sp.1 (some sp.2)) emptyBoard

/-- The en-passant pin position: white king h5, white pawn e5, black rook
a5, black pawn d5 (which has just double-moved, so the en-passant target is
d6), black king e8; white to move.  The black pawn on d5 shields the white
king from the rook, so capturing it en passant exposes the king along the
fifth rank. -/
def epPinState : GameState :=
  .mk (placeBoard
      [(⟨.h, 5⟩, ⟨.king, .white⟩), (⟨.e, 5⟩, ⟨.pawn, .white⟩),
       (⟨.a, 5⟩, ⟨.rook, .black⟩), (⟨.d, 5⟩, ⟨.pawn, .black⟩),
       (⟨.e, 8⟩, ⟨.king, .black⟩)])
    .white ⟨false, false, false, false⟩ (some ⟨.d, 6⟩) 0 3 [] ["p0"]

/-- The en passant capture e5xd6 in `epPinState`. -/
def epPinMove : Move := { fromSq := ⟨.e, 5⟩, toSq := ⟨.d, 6⟩ }

/-- The board `executeMove` produces for `epPinMove`. -/
def epPinExecuted : MoveExecutionResult :=
  executeMove epPinState.board epPinMove epPinState.enPassantTarget

/-- Whether a board leaves the given color's king attacked. -/
def kingAttacked (board : Board) (color : Color) : Bool :=
  match getKingSquare board color with
  | some kingSquare => isSquareAttacked board kingSquare (oppositeColor color)
  | none => false

/-- White king e1 and knight d4, black king e8; all rights gone. -/
def hashStateA : GameState :=
  .mk (placeBoard
      [(⟨.e, 1⟩, ⟨.king, .white⟩), (⟨.d, 4⟩, ⟨.knight, .white⟩),
       (⟨.e, 8⟩, ⟨.king, .black⟩)])
    .white ⟨false, false, false, false⟩ none 0 1 [] []

/-- White knight e1 and king d4, black king e8: the same squares as
`hashStateA` but with the white king and knight exchanged. -/
def hashStateB : GameState :=
  .mk (placeBoard
      [(⟨.e, 1⟩, ⟨.knight, .white⟩), (⟨.d, 4⟩, ⟨.king, .white⟩),
       (⟨.e, 8⟩, ⟨.king, .black⟩)])
    .white ⟨false, false, false, false⟩ none 0 1 [] []

/-- The position where en passant is the only escape from check: white king
h4, pawns g3 and h5; black king f5, bishop f1, pawn g5 (just double-moved,
en-passant target g6); white to move, in check from the g5 pawn. -/
def epOnlyEscapeState : GameState :=
  .mk (placeBoard
      [(⟨.h, 4⟩, ⟨.king, .white⟩), (⟨.h, 5⟩, ⟨.pawn, .white⟩),
       (⟨.g, 3⟩, ⟨.pawn, .white⟩), (⟨.f, 5⟩, ⟨.king, .black⟩),
       (⟨.f, 1⟩, ⟨.bishop, .black⟩), (⟨.g, 5⟩, ⟨.pawn, .black⟩)])
    .white ⟨false, false, false, false⟩ (some ⟨.g, 6⟩) 0 40 [] ["p0"]

/-- A bare-kings position (an insufficient-material draw). -/
def kkState : GameState :=
  .mk (placeBoard [(⟨.a, 1⟩, ⟨.king, .white⟩), (⟨.h, 8⟩, ⟨.king, .black⟩)])
    .white ⟨false, false, false, false⟩ none 0 1 [] ["p0"]

/-- 1. h4 (a pawn double move). -/
def moveH4 : Move := { fromSq := ⟨.h, 2⟩, toSq := ⟨.h, 4⟩ }

/-- 1... a5. -/
def moveA5 : Move := { fromSq := ⟨.a, 7⟩, toSq := ⟨.a, 5⟩ }

/-- 2. Rh3 (the h1 rook moves, clearing white's kingside right). -/
def moveRh3 : Move := { fromSq := ⟨.h, 1⟩, toSq := ⟨.h, 3⟩ }

/-- The engine state after 1. h4 a5 2. Rh3 from a new game. -/
def afterRookMove : GameState :=
  engineRun [.makeMoveOp moveH4, .makeMoveOp moveA5, .makeMoveOp moveRh3]

/-- Whether a `makeMove` result is the ok variant. -/
def resultOk {T E : Type} : Result T E → Bool
  | .ok _ => true
  | .error _ => false

/-- Parsable JSON that is not a serialized game state: an empty board array
and history, and no other fields. -/
def c4input : String := "\x7b\"board\":[],\"positionHistory\":[]\x7d"

/-- One serialized rank of eight empty cells. -/
def nullRankStr : String := "[null,null,null,null,null,null,null,null]"

/-- A structurally valid serialized state whose position history holds two
entries (as `toJSON` produces after one move): an empty board, white to
move, full rights, no target, zero clock. -/
def c5input : String :=
  "\x7b\"board\":[" ++ nullRankStr ++ "," ++ nullRankStr ++ "," ++ nullRankStr ++
    "," ++ nullRankStr ++ "," ++ nullRankStr ++ "," ++ nullRankStr ++ "," ++
    nullRankStr ++ "," ++ nullRankStr ++
    "],\"currentPlayer\":\"white\",\"castlingRights\":" ++
    "\x7b\"whiteKingside\":true,\"whiteQueenside\":true,\"blackKingside\":true," ++
    "\"blackQueenside\":true\x7d,\"enPassantTarget\":null,\"halfMoveClock\":0," ++
    "\"fullMoveNumber\":1,\"positionHistory\":[\"a\",\"b\"]\x7d"

/-! ## Claim theorems -/

/-- C1: the claim fails on the code.  In `epPinState` white is not in
check, the validator (`isLegalMove`, and equally the filter of
`generateLegalMovesForPiece`) accepts the en passant capture e5xd6, yet the
board the executor (`executeMove`) actually produces — which removes the
captured pawn from d5, a square different from the destination — leaves
white's king attacked by the rook on a5.  The validator's simulation
(`applyMoveToBoard`, "does not handle en passant yet") had left the
captured pawn in place. -/
theorem c1_legal_en_passant_leaves_king_attacked :
    isCheck epPinState .white = false ∧
    isLegalMove epPinState epPinMove = true ∧
    epPinMove ∈ generateLegalMovesForPiece epPinState ⟨.e, 5⟩ ∧
    epPinExecuted.isEnPassant = true ∧
    kingAttacked epPinExecuted.newBoard .white = true := by
  decide

/-- C2: the claim fails on the code.  `generatePositionHash` abbreviates a
piece by the first letter of its type name, so a king and a knight of the
same color both hash to the letter k: `hashStateA` and `hashStateB` differ
on the board (king and knight exchanged between d4 and e1) yet their hashes
are equal — hash equality does not imply agreement on board contents. -/
theorem c2_position_hash_collision :
    generatePositionHash hashStateA = generatePositionHash hashStateB ∧
    (hashStateA.board == hashStateB.board) = false := by
  decide

/-- C7 (spec side): the claim's strict priority order — checkmate with the
opponent as winner, else stalemate, insufficient material, threefold
repetition, fifty-move rule in that order, else active with the in-check
flag for the side to move. -/
def getGameStatusSpec (state : GameState) : GameStatus :=
  if isCheckmate state then .checkmate (oppositeColor state.currentPlayer)
  else if isStalemate state then .draw .stalemate
  else if isInsufficientMaterial state then .draw .insufficientMaterial
  else if isThreefoldRepetition state then .draw .threefoldRepetition
  else if isFiftyMoveRule state then .draw .fiftyMoveRule
  else .active (isCheck state state.currentPlayer)

/-- C7: for every state, `getGameStatus` returns exactly the claim's
priority cascade: checkmate first (winner the side not to move), else the
first draw condition among stalemate, insufficient material, threefold
repetition and the fifty-move rule, else active with the in-check flag. -/
theorem c7_game_status_priority (s : GameState) :
    getGameStatus s = getGameStatusSpec s := by
  unfold getGameStatus getDrawReason getGameStatusSpec
  by_cases h1 : isCheckmate s
  · simp [h1]
  · by_cases h2 : isStalemate s
    · simp [h1, h2]
    · by_cases h3 : isInsufficientMaterial s
      · simp [h1, h2, h3]
      · by_cases h4 : isThreefoldRepetition s
        · simp [h1, h2, h3, h4]
        · by_cases h5 : isFiftyMoveRule s
          · simp [h1, h2, h3, h4, h5]
          · simp [h1, h2, h3, h4, h5]

/-- C9: the claim fails on the code.  In `epOnlyEscapeState` the side to
move is in check and `generateAllLegalMoves` (the §4.5 generation, whose
king-safety filter does not remove the en-passant-captured pawn in its
simulation) yields zero moves, yet `isCheckmate` is false: the checker's own
generation keeps the en passant escape h5xg6.  So `isCheckmate` is not
equivalent to check plus an empty `generateAllLegalMoves` output. -/
theorem c9_counterexample_checkmate_vs_validator :
    isCheck epOnlyEscapeState epOnlyEscapeState.currentPlayer = true ∧
    generateAllLegalMoves epOnlyEscapeState = [] ∧
    isCheckmate epOnlyEscapeState = false ∧
    isStalemate epOnlyEscapeState = false := by
  decide

/-- C9 (amended): `isCheckmate` is check plus zero moves of the status
checker's own legal-move generation (`generateLegalMovesForColor`, whose
simulation does handle en passant), `isStalemate` is no-check plus zero such
moves, and the two are never both true. -/
theorem c9_amended_checkmate_stalemate (s : GameState) :
    isCheckmate s =
      (isCheck s s.currentPlayer &&
        (generateLegalMovesForColor s s.currentPlayer).isEmpty) ∧
    isStalemate s =
      (!isCheck s s.currentPlayer &&
        (generateLegalMovesForColor s s.currentPlayer).isEmpty) ∧
    (isCheckmate s && isStalemate s) = false := by
  unfold isCheckmate isStalemate
  by_cases h : isCheck s s.currentPlayer <;> simp [h]

/-- C10: whenever the current status is not active, `getLegalMoves` returns
the empty list for every square. -/
theorem c10_game_over_empty_legal_moves (s : GameState) (square : Square)
    (h : (getGameStatus s).isActive = false) :
    engineGetLegalMoves s square = [] := by
  unfold engineGetLegalMoves
  simp [h]

/-- C10 witness: the bare-kings draw position is not active, the white king
on a1 would otherwise have legal moves, and `getLegalMoves` still returns
the empty list. -/
theorem c10_witness :
    (getGameStatus kkState).isActive = false ∧
    (generateLegalMovesForPiece kkState ⟨.a, 1⟩).isEmpty = false ∧
    engineGetLegalMoves kkState ⟨.a, 1⟩ = [] :=
  ⟨by decide, by decide,
    c10_game_over_empty_legal_moves kkState ⟨.a, 1⟩ (by decide)⟩

/-! ## Round-trip lemmas for serialization -/

theorem typeOfName_typeName (t : PieceType) : typeOfName (typeName t) = some t := by
  cases t <;> rfl

theorem colorOfName_colorName (c : Color) : colorOfName (colorName c) = some c := by
  cases c <;> rfl

theorem fileOfName_fileName (fl : File) : fileOfName (fileName fl) = some fl := by
  cases fl <;> rfl

theorem decodeJsCell_roundtrip (cell : Option Piece) :
    decodeJsCell (jsCellOf (pieceToJSON cell)) = some cell := by
  cases cell with
  | none => rfl
  | some piece =>
      obtain ⟨t, c⟩ := piece
      cases t <;> cases c <;> rfl

theorem decodeJsRank_roundtrip (rank : List (Option Piece)) :
    decodeJsRank (rank.map fun cell => jsCellOf (pieceToJSON cell)) = some rank := by
  induction rank with
  | nil => rfl
  | cons cell rest ih => simp [decodeJsRank, decodeJsCell_roundtrip, ih]

theorem boardRanksFromJSON_roundtrip (rows : List (List (Option Piece))) :
    boardRanksFromJSON (rows.map fun rank => .arr (rank.map pieceToJSON)) =
      .ok (rows.map fun rank => rank.map fun cell => jsCellOf (pieceToJSON cell)) := by
  induction rows with
  | nil => rfl
  | cons rank rest ih => simp [boardRanksFromJSON, ih, List.map_map, Function.comp_def]

theorem decodeJsBoard_roundtrip (rows : List (List (Option Piece))) :
    decodeJsBoard (rows.map fun rank => rank.map fun cell => jsCellOf (pieceToJSON cell)) =
      some rows := by
  induction rows with
  | nil => rfl
  | cons rank rest ih => simp [decodeJsBoard, decodeJsRank_roundtrip, ih]

theorem decodeStrings_roundtrip (l : List String) :
    decodeStrings (l.map Json.str) = some l := by
  induction l with
  | nil => rfl
  | cons s rest ih => simp [decodeStrings, decodeStr, ih]

/-- C6: deserializing the serialization of any state reproduces its board,
current player, castling rights, en-passant target, half-move clock,
full-move number and position history exactly, with the move history empty
by design. -/
theorem c6_serialization_roundtrip (s : GameState) :
    jsonRoundTrip s = some (.mk s.board s.currentPlayer s.castlingRights
      s.enPassantTarget s.halfMoveClock s.fullMoveNumber [] s.positionHistory) := by
  obtain ⟨b, p, cr, ep, hm, fm, mh, ph⟩ := s
  obtain ⟨wk, wq, bk, bq⟩ := cr
  unfold jsonRoundTrip
  cases ep with
  | none =>
      rw [show gameStateFromJSONJs (gameStateToJSON (GameState.mk b p ⟨wk, wq, bk, bq⟩ none hm fm mh ph)) =
          (boardRanksFromJSON (b.map fun rank => Json.arr (rank.map pieceToJSON))).bind
            (fun board => Except.ok (JsGameState.mk board (some (.str (colorName p)))
              [("whiteKingside", .bool wk), ("whiteQueenside", .bool wq),
               ("blackKingside", .bool bk), ("blackQueenside", .bool bq)]
              none (some (.num (hm : Int))) (some (.num (fm : Int))) [] (ph.map .str))) from rfl,
        boardRanksFromJSON_roundtrip]
      show decodeJsGameState _ = _
      simp [decodeJsGameState, decodeJsBoard_roundtrip, decodeStrings_roundtrip,
        colorOfName_colorName, Int.toNat_natCast, Int.natCast_nonneg,
        GameState.board, GameState.currentPlayer, GameState.castlingRights,
        GameState.enPassantTarget, GameState.halfMoveClock,
        GameState.fullMoveNumber, GameState.positionHistory]
  | some target =>
      rw [show gameStateFromJSONJs (gameStateToJSON (GameState.mk b p ⟨wk, wq, bk, bq⟩ (some target) hm fm mh ph)) =
          (boardRanksFromJSON (b.map fun rank => Json.arr (rank.map pieceToJSON))).bind
            (fun board => Except.ok (JsGameState.mk board (some (.str (colorName p)))
              [("whiteKingside", .bool wk), ("whiteQueenside", .bool wq),
               ("blackKingside", .bool bk), ("blackQueenside", .bool bq)]
              (some (some (.str (fileName target.file)), some (.num (target.rank : Int))))
              (some (.num (hm : Int))) (some (.num (fm : Int))) [] (ph.map .str))) from rfl,
        boardRanksFromJSON_roundtrip]
      show decodeJsGameState _ = _
      simp [decodeJsGameState, decodeJsBoard_roundtrip, decodeStrings_roundtrip,
        colorOfName_colorName, fileOfName_fileName, Int.toNat_natCast, Int.natCast_nonneg,
        GameState.board, GameState.currentPlayer, GameState.castlingRights,
        GameState.enPassantTarget, GameState.halfMoveClock,
        GameState.fullMoveNumber, GameState.positionHistory]
/-! ## C3: the ordered failure checks of `makeMove` -/

/-- The failure kinds of `makeMove`, with their payloads (the reason string
of an illegal move carries no structure). -/
inductive MoveErrKind where
  | gameOverKind
  | noPieceKind (square : Square)
  | wrongColorKind (expected actual : Color)
  | illegalMoveKind
deriving DecidableEq, Repr

/-- The kind of a `MoveError`. -/
def moveErrKind : MoveError → MoveErrKind
  | .gameOver => .gameOverKind
  | .noPiece square => .noPieceKind square
  | .wrongColor expected actual => .wrongColorKind expected actual
  | .illegalMove _ => .illegalMoveKind

/-- The error kind of a `makeMove` result (`none` on success). -/
def resultErrKind : Result GameState MoveError → Option MoveErrKind
  | .ok _ => none
  | .error e => some (moveErrKind e)

/-- C3 (spec side): the claim's ordered checks — game not Active yields
game-over; an empty origin yields no-piece; a piece of the side not to move
yields wrong-color; a required-but-missing promotion piece, an invalid
promotion piece, or failing the move validator yields illegal-move; no
failure otherwise. -/
def makeMoveChecksSpec (s : GameState) (move : Move) : Option MoveErrKind :=
  if ¬ (getGameStatus s).isActive then some .gameOverKind
  else
    match getPiece s.board move.fromSq with
    | none => some (.noPieceKind move.fromSq)
    | some piece =>
      if piece.color ≠ s.currentPlayer then
        some (.wrongColorKind s.currentPlayer piece.color)
      else if requiresPromotion move piece ∧ move.promotion.isNone then
        some .illegalMoveKind
      else if ¬ isValidPromotion move piece then
        some .illegalMoveKind
      else if ¬ isLegalMove s move then
        some .illegalMoveKind
      else none

/-- C3: `makeMove` fails with exactly the error kind of the claim's ordered
check cascade (and succeeds exactly when no check fails), every failure is a
returned error value, and on failure the engine's current state is exactly
the input state; on success the returned state is the committed state. -/
theorem c3_make_move_ordered_checks (s : GameState) (move : Move) :
    resultErrKind (engineMakeMove s move).2 = makeMoveChecksSpec s move ∧
    (match (engineMakeMove s move).2 with
     | .error _ => (engineMakeMove s move).1 = s
     | .ok value => (engineMakeMove s move).1 = value) := by
  by_cases h1 : (getGameStatus s).isActive
  case neg =>
    simp [engineMakeMove, makeMoveChecksSpec, resultErrKind, moveErrKind, h1]
  case pos =>
    rcases hp : getPiece s.board move.fromSq with _ | piece
    · simp [engineMakeMove, makeMoveChecksSpec, resultErrKind, moveErrKind, h1, hp]
    · by_cases h2 : piece.color = s.currentPlayer
      · by_cases h3 : requiresPromotion move piece = true ∧ move.promotion = none
        · simp [engineMakeMove, makeMoveChecksSpec, resultErrKind, moveErrKind, h1, hp, h2, h3]
        · by_cases h4 : isValidPromotion move piece
          · by_cases h5 : isLegalMove s move
            · simp [engineMakeMove, makeMoveChecksSpec, resultErrKind, moveErrKind,
                cloneGameState, h1, hp, h2, h3, h4, h5]
            · simp [engineMakeMove, makeMoveChecksSpec, resultErrKind, moveErrKind,
                h1, hp, h2, h3, h4, h5]
          · simp [engineMakeMove, makeMoveChecksSpec, resultErrKind, moveErrKind,
              h1, hp, h2, h3, h4]
      · simp [engineMakeMove, makeMoveChecksSpec, resultErrKind, moveErrKind, h1, hp, h2]

/-! ## C4 and C5: fromJSON behavior -/

/-- C4: the claim fails on the code.  `c4input` is parsable JSON that is
structurally invalid as a serialized game state (no current player, no
castling rights, no clocks, an empty board array), yet `fromJSON` does not
return an invalid-json error: the deserializer never validates, nothing
throws, and the built state (with an empty board and empty histories) is
committed as the engine's current state and returned as ok. -/
theorem c4_invalid_shape_committed :
    (jsonParse c4input).isSome = true ∧
    isValidSerializedGameState ((jsonParse c4input).getD .null) = false ∧
    outcomeOk (engineFromJSON c4input) = true ∧
    outcomePosLen (engineFromJSON c4input) = some 0 ∧
    outcomeMoveLen (engineFromJSON c4input) = some 0 := by
  decide

/-- C5: the claim fails on the code.  `c5input` is a structurally valid
serialized state whose position history has two entries (exactly what
`toJSON` yields after one move); `fromJSON` accepts it and commits a state
with two position-history entries and an empty move history, so
positionHistory.length = 2 while moveHistory.length + 1 = 1. -/
theorem c5_counterexample_fromjson_breaks_invariant :
    isValidSerializedGameState ((jsonParse c5input).getD .null) = true ∧
    outcomeOk (engineFromJSON c5input) = true ∧
    outcomePosLen (engineFromJSON c5input) = some 2 ∧
    outcomeMoveLen (engineFromJSON c5input) = some 0 := by
  decide

/-! ## C5 (amended): the history-length invariant under engine operations -/

/-- A state whose position history is one longer than its move history, and
recursively so for every snapshot embedded in its move records. -/
inductive GoodState : GameState → Prop where
  | mk (board : Board) (currentPlayer : Color) (castlingRights : CastlingRights)
      (enPassantTarget : Option Square) (halfMoveClock fullMoveNumber : Nat)
      (moveHistory : List MoveRecord) (positionHistory : List String)
      (len : positionHistory.length = moveHistory.length + 1)
      (snaps : ∀ r ∈ moveHistory, GoodState r.previousState) :
      GoodState (.mk board currentPlayer castlingRights enPassantTarget
        halfMoveClock fullMoveNumber moveHistory positionHistory)

theorem GoodState.len {s : GameState} (h : GoodState s) :
    s.positionHistory.length = s.moveHistory.length + 1 := by
  cases h with
  | mk board currentPlayer castlingRights enPassantTarget halfMoveClock
      fullMoveNumber moveHistory positionHistory len snaps => exact len

theorem GoodState.snap {s : GameState} (h : GoodState s) {r : MoveRecord}
    (hr : r ∈ s.moveHistory) : GoodState r.previousState := by
  cases h with
  | mk board currentPlayer castlingRights enPassantTarget halfMoveClock
      fullMoveNumber moveHistory positionHistory len snaps => exact snaps r hr

theorem goodState_initial : GoodState createInitialState := by
  unfold createInitialState
  exact .mk _ _ _ _ _ _ _ _ (by simp) (by simp)

theorem goodState_makeMove (s : GameState) (move : Move) (h : GoodState s) :
    GoodState (engineMakeMove s move).1 := by
  unfold engineMakeMove
  split
  · exact h
  · split
    · exact h
    · split
      · exact h
      · split
        · exact h
        · split
          · exact h
          · split
            · exact h
            · show GoodState (makeMoveCommit s move _)
              unfold makeMoveCommit
              refine .mk _ _ _ _ _ _ _ _ ?_ ?_
              · simp [h.len]
              · intro r hr
                rcases List.mem_append.1 hr with hmem | hmem
                · exact h.snap hmem
                · rcases List.mem_singleton.1 hmem with rfl
                  exact h

theorem goodState_undo (s : GameState) (h : GoodState s) :
    GoodState (engineUndoMove s).1 := by
  unfold engineUndoMove
  rcases hl : s.moveHistory.getLast? with _ | r
  · exact h
  · have hmem : r ∈ s.moveHistory := by
      have hx := List.mem_getLast?_eq_getLast (l := s.moveHistory) (x := r)
        (by simp [Option.mem_def, hl])
      obtain ⟨hne, rfl⟩ := hx
      exact List.getLast_mem hne
    exact h.snap hmem

theorem goodState_step (s : GameState) (op : EngineOp) (h : GoodState s) :
    GoodState (engineStep s op) := by
  cases op with
  | newGameOp => exact goodState_initial
  | makeMoveOp move => exact goodState_makeMove s move h
  | undoMoveOp => exact goodState_undo s h

theorem goodState_run (ops : List EngineOp) (s : GameState) (h : GoodState s) :
    GoodState (ops.foldl engineStep s) := by
  induction ops generalizing s with
  | nil => exact h
  | cons op rest ih => exact ih (engineStep s op) (goodState_step s op h)

/-- C5 (amended): after construction and any sequence of newGame, makeMove
and undoMove calls — fromJSON excluded, since a successful fromJSON installs
the deserialized position history with an empty move history — the engine's
current state satisfies positionHistory.length = moveHistory.length + 1. -/
theorem c5_amended_history_length_invariant (ops : List EngineOp) :
    (engineRun ops).positionHistory.length =
      (engineRun ops).moveHistory.length + 1 :=
  (goodState_run ops createInitialState goodState_initial).len

/-! ## C8: castling rights within a game -/

/-- Componentwise order on castling rights: the left rights imply the right
ones flag by flag (false stays false). -/
def crLe (x y : CastlingRights) : Prop :=
  x.whiteKingside ≤ y.whiteKingside ∧ x.whiteQueenside ≤ y.whiteQueenside ∧
  x.blackKingside ≤ y.blackKingside ∧ x.blackQueenside ≤ y.blackQueenside

theorem crLe_refl (x : CastlingRights) : crLe x x :=
  ⟨le_refl _, le_refl _, le_refl _, le_refl _⟩

theorem crLe_trans {x y z : CastlingRights} (h1 : crLe x y) (h2 : crLe y z) :
    crLe x z :=
  ⟨le_trans h1.1 h2.1, le_trans h1.2.1 h2.2.1, le_trans h1.2.2.1 h2.2.2.1,
   le_trans h1.2.2.2 h2.2.2.2⟩

theorem clearKingMoveRights_le (r : CastlingRights) (piece : Piece) :
    crLe (clearKingMoveRights r piece) r := by
  unfold clearKingMoveRights
  split
  · split <;> simp [crLe, Bool.false_le, le_refl]
  · exact crLe_refl r

theorem clearRookMoveRights_le (r : CastlingRights) (move : Move)
    (piece : Piece) : crLe (clearRookMoveRights r move piece) r := by
  unfold clearRookMoveRights
  repeat' split
  all_goals simp [crLe, Bool.false_le, le_refl]

theorem clearRookCaptureRights_le (r : CastlingRights) (move : Move)
    (captured : Option Piece) :
    crLe (clearRookCaptureRights r move captured) r := by
  unfold clearRookCaptureRights
  repeat' split
  all_goals simp [crLe, Bool.false_le, le_refl]

theorem updateCastlingRights_le (cr : CastlingRights) (move : Move)
    (piece : Piece) (captured : Option Piece) :
    crLe (updateCastlingRights cr move piece captured) cr := by
  unfold updateCastlingRights
  exact crLe_trans (clearRookCaptureRights_le _ _ _)
    (crLe_trans (clearRookMoveRights_le _ _ _) (clearKingMoveRights_le _ _))

theorem makeMove_rights_le (s : GameState) (move : Move) :
    crLe (engineMakeMove s move).1.castlingRights s.castlingRights := by
  unfold engineMakeMove
  split
  · exact crLe_refl _
  · split
    · exact crLe_refl _
    · split
      · exact crLe_refl _
      · split
        · exact crLe_refl _
        · split
          · exact crLe_refl _
          · split
            · exact crLe_refl _
            · exact updateCastlingRights_le _ _ _ _

/-- C8 (amended): under any sequence of `makeMove` calls (accepted or
rejected) and no undo, each castling-rights flag can only go from true to
false: the rights after the run are componentwise at most the rights
before.  `undoMove` is excluded because it restores the pre-move snapshot
wholesale, rights included. -/
theorem c8_amended_rights_monotone_under_moves (s : GameState)
    (moves : List Move) :
    crLe (runMakeMoves s moves).castlingRights s.castlingRights := by
  induction moves generalizing s with
  | nil => exact crLe_refl _
  | cons move rest ih =>
      exact crLe_trans (ih ((engineMakeMove s move).1)) (makeMove_rights_le s move)

/-- C8: the claim as stated fails on the code.  From a new game, the
accepted moves 1. h4 a5 2. Rh3 clear white's kingside right; the engine
operation `undoMove` then restores the embedded snapshot, and the flag is
true again in the later current state. -/
theorem c8_counterexample_undo_restores_rights :
    resultOk (engineMakeMove createInitialState moveH4).2 = true ∧
    resultOk (engineMakeMove (engineRun [.makeMoveOp moveH4]) moveA5).2 = true ∧
    resultOk (engineMakeMove
      (engineRun [.makeMoveOp moveH4, .makeMoveOp moveA5]) moveRh3).2 = true ∧
    afterRookMove.castlingRights.whiteKingside = false ∧
    (engineStep afterRookMove .undoMoveOp).castlingRights.whiteKingside = true := by
  decide

end Chess
